import Mathlib

/-!
Shallow embedding of the FileShare backend (Node/Express + Mongoose), covering
the authentication/OTP lifecycle (`controllers/auth.js`), the token-protected
route guard (`middleware/auth.js`), and the document registry and sharing
protocol (`controllers/documents.js`, `models/Document.js`).

Conventions of the embedding:
- Mongo ObjectIds are modelled as `Nat`; timestamps (`Date.now()`) as `Nat`.
- External collaborators (Cloudinary, JWT signing/verification, bcrypt) are
  passed in as explicit parameters: a `Bool`/`Except`/function argument stands
  for the outcome of the awaited external call.
- Each controller is a pure function from its inputs (looked-up records,
  request fields, clock) to an outcome value; an early `return res.status(...)`
  becomes the corresponding constructor of an outcome inductive, and a
  successful `save()`/`create()` carries the post-state record.
- Mongoose's `DocumentSchema.pre` save hook (which refreshes `updatedAt`)
  is `saveDocument`, applied exactly where the controller calls `save()`.
-/

namespace FileShare

/-- Access levels for a share entry, `enum: ['view', 'edit']` in
`models/Document.js`. -/
inductive AccessLevel where
  | view
  | edit
deriving DecidableEq

/-- One element of a document's `sharedWith` array
(`models/Document.js`): the target user's id, the access level and the
`sharedAt` timestamp. -/
structure ShareEntry where
  user : Nat
  accessLevel : AccessLevel
  sharedAt : Nat
deriving DecidableEq

/-- A document record (`models/Document.js`): metadata fields, the
Cloudinary content reference (`fileUrl`, `publicId`), the owning user,
the `sharedWith` list and the two timestamps. -/
structure Document where
  id : Nat
  title : String
  description : String
  documentType : String
  fileUrl : String
  publicId : String
  owner : Nat
  sharedWith : List ShareEntry
  createdAt : Nat
  updatedAt : Nat
deriving DecidableEq

/-- The pending one-time code stored on a user: `user.otp = { code, expiry }`.
A cleared pending code is `none` at the `User.otp` field
(`user.otp = undefined` in `controllers/auth.js`). -/
structure Otp where
  code : String
  expiry : Nat
deriving DecidableEq

/-- A user record as the auth controller and middleware read it: id, profile
fields, the (optionally selected) password hash, the verification flag and
the optional pending OTP. -/
structure User where
  id : Nat
  name : String
  email : String
  password : Option String
  isVerified : Bool
  otp : Option Otp
deriving DecidableEq

/-- The `DocumentSchema.pre` save hook of `models/Document.js`: every
`document.save()` refreshes `updatedAt` to the current time and touches
nothing else. -/
def saveDocument (d : Document) (now : Nat) : Document :=
  { d with updatedAt := now }

/-! ## OTP verification (`verifyOTP` in `controllers/auth.js`) -/

/-- Outcomes of `verifyOTP`, one constructor per early `return` of the
controller, in source order; `verified` carries the saved post-state user. -/
inductive VerifyResult where
  | notFound
  | alreadyVerified
  | noPendingCode
  | expired
  | mismatch
  | verified (u : User)
deriving DecidableEq

/-- Controller `verifyOTP` from `controllers/auth.js`, after the user lookup by email
(`userOpt` is the result of `User.findOne({ email })`): checks user
existence, the `isVerified` guard, presence of a pending code
(`!user.otp || !user.otp.code`, where the falsy string is the empty one),
expiry (`user.otp.expiry < Date.now()`), and code equality; on success sets
`isVerified`, clears `otp` and saves. -/
def verifyOTP (userOpt : Option User) (submitted : String) (now : Nat) :
    VerifyResult :=
  match userOpt with
  | none => .notFound
  | some u =>
    if u.isVerified then .alreadyVerified
    else
      match u.otp with
      | none => .noPendingCode
      | some o =>
        if o.code = "" then .noPendingCode
        else if o.expiry < now then .expired
        else if o.code ≠ submitted then .mismatch
        else .verified { u with isVerified := true, otp := none }

/-- A user presents a usable pending code exactly when the `otp` subdocument
exists and its `code` is a truthy (non-empty) string — the negation of the
controller's `!user.otp || !user.otp.code` test. -/
def hasPendingCode (u : User) : Bool :=
  match u.otp with
  | none => false
  | some o => !(o.code = "")

/-! ## Token response helper and login (`controllers/auth.js`) -/

/-- The JSON body built by `sendTokenResponse`: `{ success: true, token, user }`
with the user's `password` and `otp` fields removed before serialisation. -/
structure TokenResponse where
  success : Bool
  token : String
  user : User
deriving DecidableEq

/-- Helper `sendTokenResponse` from `controllers/auth.js`: signs the token from the
user first (`user.getSignedJwtToken()`, the abstract `sign` argument), then
blanks `user.password` and `user.otp` before putting the user in the body. -/
def sendTokenResponse (sign : User → String) (u : User) : TokenResponse :=
  { success := true
    token := sign u
    user := { u with password := none, otp := none } }

/-- Outcomes of `login`: the two 401 bodies and the 200 token response. -/
inductive LoginResult where
  | invalidCredentials
  | unverifiedLogin
  | okLogin (resp : TokenResponse)
deriving DecidableEq

/-- Controller `login` from `controllers/auth.js`, after the lookup
`User.findOne({ email }).select('+password')` (`userOpt`): unknown email is
401 invalid credentials, an unverified user is 401, a failed
`user.matchPassword(password)` (the abstract `pwOk` outcome of bcrypt) is 401,
and otherwise the token response is sent. -/
def login (sign : User → String) (userOpt : Option User) (pwOk : Bool) :
    LoginResult :=
  match userOpt with
  | none => .invalidCredentials
  | some u =>
    if !u.isVerified then .unverifiedLogin
    else if !pwOk then .invalidCredentials
    else .okLogin (sendTokenResponse sign u)

/-- The `verify-otp` route's success body: `verifyOTP` followed by
`sendTokenResponse` on the saved user; any failure branch responds without a
token response. -/
def verifyOTPResponse (sign : User → String) (userOpt : Option User)
    (submitted : String) (now : Nat) : Option TokenResponse :=
  match verifyOTP userOpt submitted now with
  | .verified u => some (sendTokenResponse sign u)
  | _ => none

/-! ## Access guard (`protect` in `middleware/auth.js`) -/

/-- The word tested by `req.headers.authorization.startsWith('Bearer')`. -/
def bearerWord : String := "Bearer"

/-- The empty string, the one falsy token value. -/
def emptyStr : String := ""

/-- Whether the second character list starts with the first — the
`String.prototype.startsWith` test, spelt out structurally so that it
evaluates by reduction. -/
def leadingMatch : List Char → List Char → Bool
  | [], _ => true
  | _ :: _, [] => false
  | p :: ps, c :: cs => if p = c then leadingMatch ps cs else false

/-- JavaScript `split(sep)` for a single-character separator, on character
lists: adjacent separators and string ends produce empty components,
exactly as `'a b'.split(' ')` does. -/
def jsSplitChar (sep : Char) : List Char → List (List Char)
  | [] => [[]]
  | c :: rest =>
    match jsSplitChar sep rest with
    | [] => if c = sep then [[], []] else [[c]]
    | g :: gs => if c = sep then [] :: g :: gs else (c :: g) :: gs

/-- The guard's `header.split(' ')`, as a list of strings. -/
def jsSplitOnSpace (s : String) : List String :=
  (jsSplitChar ' ' s.data).map fun l => String.mk l

/-- Token extraction of `protect`: when the authorization header is present
and starts with `Bearer`, the token is the second `split(' ')` component
(absent when there is no second component). -/
def extractToken (header : Option String) : Option String :=
  match header with
  | none => none
  | some h =>
    if leadingMatch bearerWord.data h.data then (jsSplitOnSpace h).get? 1
    else none

/-- Outcomes of `protect`, one per early 401 `return` plus success, which
attaches the live user to the request (`req.user = user`). -/
inductive AuthResult where
  | missing
  | invalid
  | unknownUser
  | unverified
  | authorized (u : User)
deriving DecidableEq

/-- Recursive form of `User.findById` over the user store. -/
def findUserById (users : List User) (uid : Nat) : Option User :=
  match users with
  | [] => none
  | u :: rest => if u.id = uid then some u else findUserById rest uid

/-- Middleware `protect` from `middleware/auth.js`: extracts the bearer token (a missing
or falsy-empty token is rejected as not authorized), verifies it
(`jwt.verify`, the abstract `decode` yielding the token's `id` claim or
failing), loads the referenced user, rejects a vanished or unverified user,
and otherwise passes the live user on. -/
def protect (header : Option String) (decode : String → Option Nat)
    (users : List User) : AuthResult :=
  match extractToken header with
  | none => .missing
  | some t =>
    if t = "" then .missing
    else
      match decode t with
      | none => .invalid
      | some uid =>
        match findUserById users uid with
        | none => .unknownUser
        | some u => if !u.isVerified then .unverified else .authorized u

/-- The HTTP status `protect` responds with on failure (`none` means the
middleware called `next()`): every failure branch is a 401. -/
def protectStatus : AuthResult → Option Nat
  | .missing => some 401
  | .invalid => some 401
  | .unknownUser => some 401
  | .unverified => some 401
  | .authorized _ => none

/-! ## Document registry (`controllers/documents.js`) -/

/-- The metadata fields of the upload and update request bodies
(`title`, `description`, `documentType`). -/
structure DocFields where
  title : String
  description : String
  documentType : String
deriving DecidableEq

/-- The Cloudinary upload result used by `uploadDocument`
(`result.secure_url`, `result.public_id`). -/
structure CloudinaryUpload where
  secureUrl : String
  publicId : String
deriving DecidableEq

/-- Outcome of `uploadDocument`: the HTTP status sent and the document store
after the request (unchanged on every failure). -/
structure UploadOutcome where
  status : Nat
  store : List Document
deriving DecidableEq

/-- Controller `uploadDocument` from `controllers/documents.js`: a request without a file
is rejected 400; the Cloudinary upload is awaited first and its failure
(the thrown `cloudinaryError`) is answered 500 before any
`Document.create`; on success the record is created — with the content
reference taken from the upload result, `sharedWith` at its schema default
`[]` and both timestamps at the current time — and 201 is sent. -/
def uploadDocument (fileOpt : Option String) (fields : DocFields)
    (upload : Except String CloudinaryUpload) (requesterId : Nat)
    (store : List Document) (newId now : Nat) : UploadOutcome :=
  match fileOpt with
  | none => ⟨400, store⟩
  | some _ =>
    match upload with
    | .error _ => ⟨500, store⟩
    | .ok r =>
      ⟨201, store ++ [{ id := newId
                        title := fields.title
                        description := fields.description
                        documentType := fields.documentType
                        fileUrl := r.secureUrl
                        publicId := r.publicId
                        owner := requesterId
                        sharedWith := []
                        createdAt := now
                        updatedAt := now }]⟩

/-- First share entry of `sharedWith` for a given user id — the
`sharedWith.find(share => share.user.toString() === uid)` pattern of the
controllers. -/
def findShare (uid : Nat) : List ShareEntry → Option ShareEntry
  | [] => none
  | e :: rest => if e.user = uid then some e else findShare uid rest

/-- The edit-access test of `updateDocument`:
`sharedWith.find(share => share.user === uid && share.accessLevel === 'edit')`
is truthy. -/
def hasEditShare (uid : Nat) : List ShareEntry → Bool
  | [] => false
  | e :: rest =>
    if e.user = uid ∧ e.accessLevel = .edit then true
    else hasEditShare uid rest

/-- Outcomes of `updateDocument`: not found (404), not authorized (403), or
200 with the updated record. -/
inductive UpdateResult where
  | notFound
  | forbidden
  | updated (d : Document)
deriving DecidableEq

/-- Controller `updateDocument` from `controllers/documents.js`: 404 when the id resolves
to no document; a requester who is neither the owner nor the holder of an
`edit` share is rejected 403; otherwise `findByIdAndUpdate` replaces the
three metadata fields and sets `updatedAt: Date.now()`, leaving every other
field as it was. -/
def updateDocument (docOpt : Option Document) (requesterId : Nat)
    (fields : DocFields) (now : Nat) : UpdateResult :=
  match docOpt with
  | none => .notFound
  | some d =>
    if d.owner ≠ requesterId ∧ hasEditShare requesterId d.sharedWith = false
    then .forbidden
    else
      .updated { d with title := fields.title
                        description := fields.description
                        documentType := fields.documentType
                        updatedAt := now }

/-- Outcome of `deleteDocument`: the HTTP status and whether the registry
record was actually removed (`document.deleteOne()` ran). -/
structure DeleteOutcome where
  status : Nat
  removed : Bool
deriving DecidableEq

/-- Controller `deleteDocument` from `controllers/documents.js`: 404 when the document is
absent, 403 for any non-owner; then `cloudinary.uploader.destroy` is awaited
inside the same `try` block, so a destroy failure (`destroyOk = false`)
jumps to the outer `catch` and answers 500 with `deleteOne()` never reached;
only after a successful destroy is the record deleted and 200 sent. -/
def deleteDocument (docOpt : Option Document) (requesterId : Nat)
    (destroyOk : Bool) : DeleteOutcome :=
  match docOpt with
  | none => ⟨404, false⟩
  | some d =>
    if d.owner ≠ requesterId then ⟨403, false⟩
    else if destroyOk then ⟨200, true⟩
    else ⟨500, false⟩

/-! ## Sharing protocol (`controllers/documents.js`) -/

/-- Lookup `User.findOne` by email over the user store. -/
def findUserByEmail (users : List User) (email : String) : Option User :=
  match users with
  | [] => none
  | u :: rest => if u.email = email then some u else findUserByEmail rest email

/-- Outcomes of `shareDocument`, one per early `return`, in source order;
`shared` carries the saved post-state document. -/
inductive ShareResult where
  | notFound
  | forbidden
  | targetNotFound
  | selfShare
  | alreadyShared
  | shared (d : Document)
deriving DecidableEq

/-- Controller `shareDocument` from `controllers/documents.js`: 404 for a missing
document, 403 for a non-owner requester, 404 when the email resolves to no
user, 400 when the target is the requester, 400 when `sharedWith` already
holds an entry for the target; otherwise the entry
`{ user, accessLevel, sharedAt: Date.now() }` is pushed and the document
saved (which refreshes `updatedAt`). -/
def shareDocument (docOpt : Option Document) (requesterId : Nat)
    (users : List User) (email : String) (level : AccessLevel) (now : Nat) :
    ShareResult :=
  match docOpt with
  | none => .notFound
  | some d =>
    if d.owner ≠ requesterId then .forbidden
    else
      match findUserByEmail users email with
      | none => .targetNotFound
      | some target =>
        if target.id = requesterId then .selfShare
        else
          match findShare target.id d.sharedWith with
          | some _ => .alreadyShared
          | none =>
            .shared (saveDocument
              { d with sharedWith :=
                  d.sharedWith ++ [⟨target.id, level, now⟩] } now)

/-- In-place access-level update of the first entry for a user id — the
`findIndex` / `sharedWith[shareIndex].accessLevel = accessLevel` pair of
`updateSharing`. -/
def setShareLevel (uid : Nat) (level : AccessLevel) :
    List ShareEntry → List ShareEntry
  | [] => []
  | e :: rest =>
    if e.user = uid then { e with accessLevel := level } :: rest
    else e :: setShareLevel uid level rest

/-- Removal of the first entry for a user id — the `findIndex` /
`sharedWith.splice(shareIndex, 1)` pair of `removeSharing`. -/
def removeShare (uid : Nat) : List ShareEntry → List ShareEntry
  | [] => []
  | e :: rest => if e.user = uid then rest else e :: removeShare uid rest

/-- Outcomes of `updateSharing` and `removeSharing`: missing document (404),
non-owner (403), no share entry for the target (404), or 200 with the saved
document. -/
inductive SharingMutationResult where
  | notFound
  | forbidden
  | notShared
  | mutated (d : Document)
deriving DecidableEq

/-- Controller `updateSharing` from `controllers/documents.js`: 404 for a missing
document, 403 for a non-owner requester, 404 when no `sharedWith` entry
matches the target user id; otherwise that entry's `accessLevel` is
overwritten and the document saved (which refreshes `updatedAt`). -/
def updateSharing (docOpt : Option Document) (requesterId targetId : Nat)
    (level : AccessLevel) (now : Nat) : SharingMutationResult :=
  match docOpt with
  | none => .notFound
  | some d =>
    if d.owner ≠ requesterId then .forbidden
    else
      match findShare targetId d.sharedWith with
      | none => .notShared
      | some _ =>
        .mutated (saveDocument
          { d with sharedWith := setShareLevel targetId level d.sharedWith }
          now)

/-- Controller `removeSharing` from `controllers/documents.js`: same gates as
`updateSharing`, then the matching entry is spliced out and the document
saved (which refreshes `updatedAt`). -/
def removeSharing (docOpt : Option Document) (requesterId targetId : Nat)
    (now : Nat) : SharingMutationResult :=
  match docOpt with
  | none => .notFound
  | some d =>
    if d.owner ≠ requesterId then .forbidden
    else
      match findShare targetId d.sharedWith with
      | none => .notShared
      | some _ =>
        .mutated (saveDocument
          { d with sharedWith := removeShare targetId d.sharedWith } now)

/-! ## Derived predicates used by the invariants -/

/-- No two entries of `sharedWith` name the same user: at most one
`ShareEntry` per (document, user) pair. -/
def uniqueShares (d : Document) : Prop :=
  d.sharedWith.Pairwise (fun a b => a.user ≠ b.user)

/-- The owner never appears among the document's share targets. -/
def ownerNotShared (d : Document) : Prop :=
  ∀ e ∈ d.sharedWith, e.user ≠ d.owner

/-! ## Concrete fixtures used by witnesses and counterexamples -/

/-- The six-digit code of the concrete pending OTP. -/
def codeOk : String := "123456"

/-- A six-digit code different from `codeOk`. -/
def codeBad : String := "999999"

/-- Alice's email address. -/
def emailAlice : String := "alice@x.com"

/-- Bob's email address. -/
def emailBob : String := "bob@x.com"

/-- A pending code as `generateOTP` leaves it: a six-digit string and an
expiry timestamp. -/
def otpFresh : Otp := { code := codeOk, expiry := 100 }

/-- An unverified user holding `otpFresh` as pending code. -/
def uAliceFresh : User :=
  { id := 1
    name := "alice"
    email := emailAlice
    password := none
    isVerified := false
    otp := some otpFresh }

/-- User `uAliceFresh` after a successful OTP verification: verified, pending code
cleared. -/
def uAliceDone : User := { uAliceFresh with isVerified := true, otp := none }

/-- An unverified user with no pending code at all. -/
def uBareUnverified : User :=
  { id := 2
    name := "bob"
    email := emailBob
    password := none
    isVerified := false
    otp := none }

/-! ## Claims about OTP verification -/

/-- Claim C4: `verifyOTP` checks its failure conditions in exactly this
precedence order — `notFound` when no identity exists for the email, else
`alreadyVerified` when the identity is verified (no state change: every
failure constructor carries no mutated user), else `noPendingCode` when no
usable pending code exists, else `expired` when `now > expiresAt` (the
source test `user.otp.expiry < Date.now()`), else `mismatch` when the stored
and submitted codes differ — and only otherwise succeeds, clearing the
pending code and setting `isVerified := true`. -/
theorem C4_verifyOTP_error_precedence (u : User) (o : Otp) (c : String)
    (now : Nat) :
    verifyOTP none c now = .notFound
    ∧ (u.isVerified = true → verifyOTP (some u) c now = .alreadyVerified)
    ∧ (u.isVerified = false → hasPendingCode u = false →
        verifyOTP (some u) c now = .noPendingCode)
    ∧ (u.isVerified = false → u.otp = some o → o.code ≠ "" →
        o.expiry < now → verifyOTP (some u) c now = .expired)
    ∧ (u.isVerified = false → u.otp = some o → o.code ≠ "" →
        ¬ o.expiry < now → o.code ≠ c → verifyOTP (some u) c now = .mismatch)
    ∧ (u.isVerified = false → u.otp = some o → o.code ≠ "" →
        ¬ o.expiry < now → o.code = c →
        verifyOTP (some u) c now
          = .verified { u with isVerified := true, otp := none }) := by
  refine ⟨rfl, ?_, ?_, ?_, ?_, ?_⟩
  · intro hv
    simp [verifyOTP, hv]
  · intro hv hp
    cases ho : u.otp with
    | none => simp [verifyOTP, hv, ho]
    | some o₀ =>
      have hc : o₀.code = "" := by
        simpa [hasPendingCode, ho] using hp
      simp [verifyOTP, hv, ho, hc]
  · intro hv ho hc hexp
    simp [verifyOTP, hv, ho, hc, hexp]
  · intro hv ho hc hexp hne
    simp [verifyOTP, hv, ho, hc, hexp, hne]
  · intro hv ho hc hexp heq
    have hc' : c ≠ "" := heq ▸ hc
    simp [verifyOTP, hv, ho, hc, hc', hexp, heq]

/-- Witness for C4: each guarded branch exercised at a concrete user, code
and clock. -/
theorem C4_verifyOTP_error_precedence_witness :
    verifyOTP (some uAliceDone) codeOk 50 = .alreadyVerified
    ∧ verifyOTP (some uBareUnverified) codeOk 50 = .noPendingCode
    ∧ verifyOTP (some uAliceFresh) codeOk 200 = .expired
    ∧ verifyOTP (some uAliceFresh) codeBad 50 = .mismatch
    ∧ verifyOTP (some uAliceFresh) codeOk 50
        = .verified { uAliceFresh with isVerified := true, otp := none } := by
  refine ⟨?_, ?_, ?_, ?_, ?_⟩
  · exact (C4_verifyOTP_error_precedence uAliceDone otpFresh codeOk 50).2.1
      (by decide)
  · exact (C4_verifyOTP_error_precedence uBareUnverified otpFresh codeOk
      50).2.2.1 (by decide) (by decide)
  · exact (C4_verifyOTP_error_precedence uAliceFresh otpFresh codeOk
      200).2.2.2.1 (by decide) rfl (by decide) (by decide)
  · exact (C4_verifyOTP_error_precedence uAliceFresh otpFresh codeBad
      50).2.2.2.2.1 (by decide) rfl (by decide) (by decide) (by decide)
  · exact (C4_verifyOTP_error_precedence uAliceFresh otpFresh codeOk
      50).2.2.2.2.2 (by decide) rfl (by decide) (by decide) (by decide)

/-- Counterexample to claim C5 as stated: after the successful verification of
`uAliceFresh`, an immediately repeated verify with the same code does not
fail with `noPendingCode` — the `isVerified` guard fires first and the
repeat fails with `alreadyVerified`. -/
theorem C5_repeat_verify_counterexample :
    verifyOTP (some uAliceFresh) codeOk 50 = .verified uAliceDone
    ∧ verifyOTP (some uAliceDone) codeOk 50 ≠ .noPendingCode
    ∧ verifyOTP (some uAliceDone) codeOk 50 = .alreadyVerified := by
  refine ⟨by decide, by decide, by decide⟩

/-- Claim C5 as amended: a verify with the correct code before expiry succeeds
exactly once — the successful verify clears the pending code and sets the
verified flag, so an immediately repeated verify with the same (or any)
code fails, with `alreadyVerified` rather than `noPendingCode`, because the
already-verified guard precedes the pending-code check. -/
theorem C5_verify_single_use (u u' : User) (c c' : String) (now now' : Nat)
    (h : verifyOTP (some u) c now = .verified u') :
    u'.otp = none ∧ u'.isVerified = true
    ∧ verifyOTP (some u') c' now' = .alreadyVerified := by
  have hu : u' = { u with isVerified := true, otp := none } := by
    by_cases hv : u.isVerified
    · simp [verifyOTP, hv] at h
    · cases ho : u.otp with
      | none => simp [verifyOTP, hv, ho] at h
      | some o =>
        by_cases hc : o.code = ""
        · simp [verifyOTP, hv, ho, hc] at h
        · by_cases hexp : o.expiry < now
          · simp [verifyOTP, hv, ho, hc, hexp] at h
          · by_cases heq : o.code = c
            · have hc' : ¬ c = "" := heq ▸ hc
              have hs : verifyOTP (some u) c now
                  = .verified { u with isVerified := true, otp := none } := by
                simp [verifyOTP, hv, ho, hc, hc', hexp, heq]
              rw [hs] at h
              exact (VerifyResult.verified.injEq _ _).mp h.symm
            · simp [verifyOTP, hv, ho, hc, hexp, heq] at h
  subst hu
  refine ⟨rfl, rfl, ?_⟩
  simp [verifyOTP]

/-- Witness for C5: the amended single-use property at the concrete round
trip of `uAliceFresh`. -/
theorem C5_verify_single_use_witness :
    uAliceDone.otp = none ∧ uAliceDone.isVerified = true
    ∧ verifyOTP (some uAliceDone) codeOk 60 = .alreadyVerified :=
  C5_verify_single_use uAliceFresh uAliceDone codeOk codeOk 50 60
    (by decide)

/-! ## Claims about deletion and creation -/

/-- A document owned by user 1 with user 2 holding an `edit` share. -/
def docOwned : Document :=
  { id := 10
    title := "passport"
    description := "scan"
    documentType := "Passport"
    fileUrl := "https://cdn/x"
    publicId := "secure-doc-share/x"
    owner := 1
    sharedWith := [⟨2, .edit, 20⟩]
    createdAt := 5
    updatedAt := 20 }

/-- Counterexample to claim C1 as stated: when the owner (user 1) deletes
`docOwned` and the Cloudinary destroy fails, the request is answered 500 —
not 200 — and the registry record is not deleted, because the awaited
destroy throws into the controller's only `catch` before `deleteOne()`. -/
theorem C1_destroy_failure_counterexample :
    (deleteDocument (some docOwned) 1 false).status = 500
    ∧ (deleteDocument (some docOwned) 1 false).removed = false := by
  refine ⟨by decide, by decide⟩

/-- Claim C1 as amended: `delete(D, R)` succeeds only when `R` is `D`'s owner
(403 otherwise, including for edit sharers), but a failure of the
content-store release is fatal: the registry record is then not deleted and
the request is answered 500; only a successful release lets the registry
deletion proceed with 200. -/
theorem C1_delete_owner_gated_release_blocking (d : Document) (r : Nat)
    (ok : Bool) :
    ((deleteDocument (some d) r ok).removed = true → r = d.owner)
    ∧ (r ≠ d.owner → deleteDocument (some d) r ok = ⟨403, false⟩)
    ∧ (r = d.owner → deleteDocument (some d) r false = ⟨500, false⟩)
    ∧ (r = d.owner → deleteDocument (some d) r true = ⟨200, true⟩) := by
  refine ⟨?_, ?_, ?_, ?_⟩
  · intro hrem
    by_cases hown : d.owner = r
    · exact hown.symm
    · simp [deleteDocument, hown] at hrem
  · intro hne
    have hown : d.owner ≠ r := fun hcontra => hne hcontra.symm
    simp [deleteDocument, hown]
  · intro hr
    simp [deleteDocument, hr]
  · intro hr
    simp [deleteDocument, hr]

/-- Witness for C1: the owner gate and both release outcomes at `docOwned`,
requested by the owner (user 1) and by the edit sharer (user 2). -/
theorem C1_delete_owner_gated_release_blocking_witness :
    deleteDocument (some docOwned) 2 true = ⟨403, false⟩
    ∧ deleteDocument (some docOwned) 1 false = ⟨500, false⟩
    ∧ deleteDocument (some docOwned) 1 true = ⟨200, true⟩ := by
  refine ⟨?_, ?_, ?_⟩
  · exact (C1_delete_owner_gated_release_blocking docOwned 2 true).2.1
      (by decide)
  · exact (C1_delete_owner_gated_release_blocking docOwned 1 false).2.2.1 rfl
  · exact (C1_delete_owner_gated_release_blocking docOwned 1 true).2.2.2 rfl

/-- Claim C6: document creation is atomic from the caller's perspective — the
content-store upload is attempted before the registry create (the created
record's content reference can only come from the upload result), a failed
upload is answered 500 with the document store unchanged, and a successful
upload appends exactly the new record, whose content reference is the
upload result's URL and public id. -/
theorem C6_upload_atomic (f : String) (fields : DocFields) (err : String)
    (r : CloudinaryUpload) (rid : Nat) (store : List Document)
    (newId now : Nat) :
    (∀ upl, (uploadDocument none fields upl rid store newId now).store = store)
    ∧ uploadDocument (some f) fields (.error err) rid store newId now
        = ⟨500, store⟩
    ∧ uploadDocument (some f) fields (.ok r) rid store newId now
        = ⟨201, store ++ [{ id := newId
                            title := fields.title
                            description := fields.description
                            documentType := fields.documentType
                            fileUrl := r.secureUrl
                            publicId := r.publicId
                            owner := rid
                            sharedWith := []
                            createdAt := now
                            updatedAt := now }]⟩ := by
  refine ⟨?_, rfl, rfl⟩
  intro upl
  rfl

/-! ## Claim about the access guard -/

/-- Claim C7: `protect` fails with `missing` when no bearer token is presented
(no header, a header not led by the `Bearer` word, or a falsy-empty token),
with `invalid` when the `jwt.verify` check fails, with `unknownUser` when
the identity referenced by the token no longer exists in the store, and
with `unverified` when the referenced identity has `isVerified = false`;
otherwise it succeeds with the live identity loaded from the store, and
every failure is mapped to HTTP 401. -/
theorem C7_protect_failure_taxonomy (header : Option String) (t : String)
    (decode : String → Option Nat) (users : List User) (uid : Nat)
    (u : User) :
    protect none decode users = .missing
    ∧ (extractToken header = none → protect header decode users = .missing)
    ∧ (extractToken header = some emptyStr → protect header decode users = .missing)
    ∧ (extractToken header = some t → t ≠ "" → decode t = none →
        protect header decode users = .invalid)
    ∧ (extractToken header = some t → t ≠ "" → decode t = some uid →
        findUserById users uid = none →
        protect header decode users = .unknownUser)
    ∧ (extractToken header = some t → t ≠ "" → decode t = some uid →
        findUserById users uid = some u → u.isVerified = false →
        protect header decode users = .unverified)
    ∧ (extractToken header = some t → t ≠ "" → decode t = some uid →
        findUserById users uid = some u → u.isVerified = true →
        protect header decode users = .authorized u)
    ∧ (∀ res : AuthResult, (∀ v, res ≠ .authorized v) →
        protectStatus res = some 401) := by
  refine ⟨rfl, ?_, ?_, ?_, ?_, ?_, ?_, ?_⟩
  · intro hx
    simp [protect, hx]
  · intro hx
    simp [protect, hx, emptyStr]
  · intro hx ht hd
    simp [protect, hx, ht, hd]
  · intro hx ht hd hf
    simp [protect, hx, ht, hd, hf]
  · intro hx ht hd hf hv
    simp [protect, hx, ht, hd, hf, hv]
  · intro hx ht hd hf hv
    simp [protect, hx, ht, hd, hf, hv]
  · intro res hres
    cases res with
    | missing => rfl
    | invalid => rfl
    | unknownUser => rfl
    | unverified => rfl
    | authorized v => exact absurd rfl (hres v)

/-- A concrete authorization header carrying the token `tok1`. -/
def hdrBearer : String := "Bearer tok1"

/-- The token carried by `hdrBearer`. -/
def tok1Lit : String := "tok1"

/-- A concrete token decoder: `tok1` verifies to the id claim 1, everything
else fails verification. -/
def decodeTok1 (s : String) : Option Nat := if s = tok1Lit then some 1 else none

/-- Witness for C7: every branch of the guard exercised concretely — no
header, a bad token, an unknown id, an unverified user, a verified user,
and the 401 mapping. -/
theorem C7_protect_failure_taxonomy_witness :
    protect none decodeTok1 [uAliceDone] = .missing
    ∧ protect (some hdrBearer) decodeTok1 [] = .unknownUser
    ∧ protect (some hdrBearer) decodeTok1 [uAliceFresh] = .unverified
    ∧ protect (some hdrBearer) decodeTok1 [uAliceDone] = .authorized uAliceDone
    ∧ protectStatus .missing = some 401 := by
  refine ⟨?_, ?_, ?_, ?_, ?_⟩
  · exact (C7_protect_failure_taxonomy none tok1Lit decodeTok1 [uAliceDone] 1
      uAliceDone).1
  · exact (C7_protect_failure_taxonomy (some hdrBearer) tok1Lit decodeTok1 []
      1 uAliceDone).2.2.2.2.1 (by decide) (by decide) (by decide) rfl
  · exact (C7_protect_failure_taxonomy (some hdrBearer) tok1Lit decodeTok1
      [uAliceFresh] 1 uAliceFresh).2.2.2.2.2.1 (by decide) (by decide)
      (by decide) (by decide) (by decide)
  · exact (C7_protect_failure_taxonomy (some hdrBearer) tok1Lit decodeTok1
      [uAliceDone] 1 uAliceDone).2.2.2.2.2.2.1 (by decide) (by decide)
      (by decide) (by decide) (by decide)
  · exact (C7_protect_failure_taxonomy none tok1Lit decodeTok1 [] 1
      uAliceDone).2.2.2.2.2.2.2 .missing
      (fun v h => AuthResult.noConfusion h)

/-! ## Claims about the sharing protocol's authorization -/

/-- Claim C3: for every document and every requester who is not its owner,
`grant` (`shareDocument`), `modify` (`updateSharing`) and `revoke`
(`removeSharing`) all fail Forbidden — the statement is for all documents,
so in particular for one on which the requester holds an `edit` share —
while the document field update succeeds for any requester holding an
`edit` share. -/
theorem C3_sharing_management_owner_gated (d : Document) (rid targetId : Nat)
    (users : List User) (email : String) (lvl : AccessLevel)
    (fields : DocFields) (now : Nat) (hne : rid ≠ d.owner) :
    shareDocument (some d) rid users email lvl now = .forbidden
    ∧ updateSharing (some d) rid targetId lvl now = .forbidden
    ∧ removeSharing (some d) rid targetId now = .forbidden
    ∧ (hasEditShare rid d.sharedWith = true →
        updateDocument (some d) rid fields now
          = .updated { d with title := fields.title
                              description := fields.description
                              documentType := fields.documentType
                              updatedAt := now }) := by
  have hown : d.owner ≠ rid := fun hcontra => hne hcontra.symm
  refine ⟨?_, ?_, ?_, ?_⟩
  · simp [shareDocument, hown]
  · simp [updateSharing, hown]
  · simp [removeSharing, hown]
  · intro hedit
    simp [updateDocument, hown, hedit]

/-- Replacement metadata used by the update witnesses. -/
def fieldsNew : DocFields :=
  { title := "passport v2"
    description := "rescan"
    documentType := "Passport" }

/-- Witness for C3: user 2 holds an `edit` share on `docOwned` but is not its
owner — sharing management by user 2 is Forbidden on all three operations
while user 2's field update succeeds. -/
theorem C3_sharing_management_owner_gated_witness :
    shareDocument (some docOwned) 2 [uAliceDone] emailAlice .view 60
      = .forbidden
    ∧ updateSharing (some docOwned) 2 1 .view 60 = .forbidden
    ∧ removeSharing (some docOwned) 2 1 60 = .forbidden
    ∧ updateDocument (some docOwned) 2 fieldsNew 60
        = .updated { docOwned with title := fieldsNew.title
                                   description := fieldsNew.description
                                   documentType := fieldsNew.documentType
                                   updatedAt := 60 } := by
  have h := C3_sharing_management_owner_gated docOwned 2 1 [uAliceDone]
    emailAlice .view fieldsNew 60 (by decide)
  exact ⟨h.1, h.2.1, h.2.2.1, h.2.2.2 (by decide)⟩

/-! ## Helper lemmas shared by the sharing-protocol claims -/

/-- When `findShare` finds nothing, no entry of the list names the user. -/
theorem findShare_none_not_mem (uid : Nat) (l : List ShareEntry)
    (h : findShare uid l = none) : ∀ e ∈ l, e.user ≠ uid := by
  induction l with
  | nil => simp
  | cons a rest ih =>
    by_cases ha : a.user = uid
    · simp [findShare, ha] at h
    · rw [findShare, if_neg ha] at h
      intro e he
      rcases List.mem_cons.mp he with rfl | hmem
      · exact ha
      · exact ih h e hmem

/-- Appending an entry for a user not yet present makes `findShare` find
exactly that entry. -/
theorem findShare_append_of_none (uid : Nat) (l : List ShareEntry)
    (e : ShareEntry) (h : findShare uid l = none) (he : e.user = uid) :
    findShare uid (l ++ [e]) = some e := by
  induction l with
  | nil => simp [findShare, he]
  | cons a rest ih =>
    by_cases ha : a.user = uid
    · simp [findShare, ha] at h
    · rw [findShare, if_neg ha] at h
      rw [List.cons_append, findShare, if_neg ha]
      exact ih h

/-- Every entry of `setShareLevel uid lvl l` carries the user id of some
entry of `l` (the level update never introduces a new user). -/
theorem mem_setShareLevel (uid : Nat) (lvl : AccessLevel)
    (l : List ShareEntry) :
    ∀ e ∈ setShareLevel uid lvl l, ∃ e₀ ∈ l, e.user = e₀.user := by
  induction l with
  | nil => simp [setShareLevel]
  | cons a rest ih =>
    by_cases ha : a.user = uid
    · rw [setShareLevel, if_pos ha]
      intro e he
      rcases List.mem_cons.mp he with rfl | hmem
      · exact ⟨a, List.mem_cons_self a rest, rfl⟩
      · exact ⟨e, List.mem_cons_of_mem a hmem, rfl⟩
    · rw [setShareLevel, if_neg ha]
      intro e he
      rcases List.mem_cons.mp he with rfl | hmem
      · exact ⟨e, List.mem_cons_self e rest, rfl⟩
      · rcases ih e hmem with ⟨e₀, he₀, heq⟩
        exact ⟨e₀, List.mem_cons_of_mem a he₀, heq⟩

/-- Every entry surviving `removeShare` was an entry of the original list. -/
theorem mem_removeShare (uid : Nat) (l : List ShareEntry) :
    ∀ e ∈ removeShare uid l, e ∈ l := by
  induction l with
  | nil => simp [removeShare]
  | cons a rest ih =>
    by_cases ha : a.user = uid
    · rw [removeShare, if_pos ha]
      exact fun e he => List.mem_cons_of_mem a he
    · rw [removeShare, if_neg ha]
      intro e he
      rcases List.mem_cons.mp he with rfl | hmem
      · exact List.mem_cons_self e rest
      · exact List.mem_cons_of_mem a (ih e hmem)

/-- Inversion of a successful `shareDocument`: the requester was the owner,
the email resolved to a target distinct from the requester and not yet
shared with, and the saved document is the input with the new entry
appended and `updatedAt` refreshed. -/
theorem shareDocument_shared_inv (d d₁ : Document) (rid : Nat)
    (users : List User) (email : String) (lvl : AccessLevel) (now : Nat)
    (h : shareDocument (some d) rid users email lvl now = .shared d₁) :
    ∃ target, findUserByEmail users email = some target
      ∧ d.owner = rid
      ∧ target.id ≠ rid
      ∧ findShare target.id d.sharedWith = none
      ∧ d₁ = saveDocument
          { d with sharedWith := d.sharedWith ++ [⟨target.id, lvl, now⟩] }
          now := by
  by_cases hown : d.owner ≠ rid
  · simp [shareDocument, hown] at h
  · cases hfind : findUserByEmail users email with
    | none => simp [shareDocument, hown, hfind] at h
    | some target =>
      by_cases hself : target.id = rid
      · simp [shareDocument, hown, hfind, hself] at h
      · cases hsh : findShare target.id d.sharedWith with
        | some e => simp [shareDocument, hown, hfind, hself, hsh] at h
        | none =>
          have hval : shareDocument (some d) rid users email lvl now
              = .shared (saveDocument
                { d with sharedWith :=
                    d.sharedWith ++ [⟨target.id, lvl, now⟩] } now) := by
            simp [shareDocument, hown, hfind, hself, hsh]
          rw [hval] at h
          exact ⟨target, rfl, of_not_not hown, hself, hsh,
            ((ShareResult.shared.injEq _ _).mp h).symm⟩

/-- Inversion of a successful `updateSharing`: the requester was the owner, a
share entry for the target exists, and the saved document is the input with
that entry's level overwritten and `updatedAt` refreshed. -/
theorem updateSharing_mutated_inv (d d₁ : Document) (rid targetId : Nat)
    (lvl : AccessLevel) (now : Nat)
    (h : updateSharing (some d) rid targetId lvl now = .mutated d₁) :
    d.owner = rid
    ∧ (∃ e, findShare targetId d.sharedWith = some e)
    ∧ d₁ = saveDocument
        { d with sharedWith := setShareLevel targetId lvl d.sharedWith }
        now := by
  by_cases hown : d.owner ≠ rid
  · simp [updateSharing, hown] at h
  · cases hsh : findShare targetId d.sharedWith with
    | none => simp [updateSharing, hown, hsh] at h
    | some e =>
      have hval : updateSharing (some d) rid targetId lvl now
          = .mutated (saveDocument
            { d with sharedWith := setShareLevel targetId lvl d.sharedWith }
            now) := by
        simp [updateSharing, hown, hsh]
      rw [hval] at h
      exact ⟨of_not_not hown, ⟨e, rfl⟩,
        ((SharingMutationResult.mutated.injEq _ _).mp h).symm⟩

/-- Inversion of a successful `removeSharing`: the requester was the owner, a
share entry for the target exists, and the saved document is the input with
that entry spliced out and `updatedAt` refreshed. -/
theorem removeSharing_mutated_inv (d d₁ : Document) (rid targetId : Nat)
    (now : Nat)
    (h : removeSharing (some d) rid targetId now = .mutated d₁) :
    d.owner = rid
    ∧ (∃ e, findShare targetId d.sharedWith = some e)
    ∧ d₁ = saveDocument
        { d with sharedWith := removeShare targetId d.sharedWith } now := by
  by_cases hown : d.owner ≠ rid
  · simp [removeSharing, hown] at h
  · cases hsh : findShare targetId d.sharedWith with
    | none => simp [removeSharing, hown, hsh] at h
    | some e =>
      have hval : removeSharing (some d) rid targetId now
          = .mutated (saveDocument
            { d with sharedWith := removeShare targetId d.sharedWith }
            now) := by
        simp [removeSharing, hown, hsh]
      rw [hval] at h
      exact ⟨of_not_not hown, ⟨e, rfl⟩,
        ((SharingMutationResult.mutated.injEq _ _).mp h).symm⟩

/-- Inversion of a successful `updateDocument`: the result is the input with
the three metadata fields replaced and `updatedAt` set to the current
time. -/
theorem updateDocument_updated_inv (d d₁ : Document) (rid : Nat)
    (fields : DocFields) (now : Nat)
    (h : updateDocument (some d) rid fields now = .updated d₁) :
    d₁ = { d with title := fields.title
                  description := fields.description
                  documentType := fields.documentType
                  updatedAt := now } := by
  by_cases hauth : d.owner ≠ rid ∧ hasEditShare rid d.sharedWith = false
  · simp [updateDocument, hauth] at h
  · have hval : updateDocument (some d) rid fields now
        = .updated { d with title := fields.title
                            description := fields.description
                            documentType := fields.documentType
                            updatedAt := now } := by
      simp [updateDocument, hauth]
    rw [hval] at h
    exact ((UpdateResult.updated.injEq _ _).mp h).symm

/-! ## Claim C2: uniqueness of share entries under grant -/

/-- Claim C2: when a document's `sharedWith` already holds an entry for a
user, every further owner-issued grant for that user's email fails
`alreadyShared` at any level (and, returning before any `save()`, leaves
the stored list unchanged); in particular after a successful grant at
`view`, a second grant at `edit` fails `alreadyShared` while the stored
entry remains at `view`; and a successful grant preserves the at-most-one-
entry-per-user invariant. -/
theorem C2_grant_share_uniqueness (d : Document) (rid : Nat)
    (users : List User) (email : String) (target : User) (e : ShareEntry)
    (lvl lvl' : AccessLevel) (now now' : Nat) :
    (d.owner = rid → findUserByEmail users email = some target →
      target.id ≠ rid → findShare target.id d.sharedWith = some e →
      shareDocument (some d) rid users email lvl' now' = .alreadyShared)
    ∧ (∀ d₁, shareDocument (some d) rid users email lvl now = .shared d₁ →
        findUserByEmail users email = some target →
        shareDocument (some d₁) rid users email lvl' now' = .alreadyShared
        ∧ findShare target.id d₁.sharedWith = some ⟨target.id, lvl, now⟩)
    ∧ (∀ d₁, uniqueShares d →
        shareDocument (some d) rid users email lvl now = .shared d₁ →
        uniqueShares d₁) := by
  refine ⟨?_, ?_, ?_⟩
  · intro hr hfind hself hsh
    have hown : ¬ d.owner ≠ rid := by simp [hr]
    simp [shareDocument, hown, hfind, hself, hsh]
  · intro d₁ h hfind
    rcases shareDocument_shared_inv d d₁ rid users email lvl now h with
      ⟨t, hfind', hr, hself, hsh, hd₁⟩
    have ht : t = target := by
      rw [hfind'] at hfind
      exact (Option.some.injEq _ _).mp hfind
    subst ht
    have hentry : findShare t.id d₁.sharedWith = some ⟨t.id, lvl, now⟩ := by
      rw [hd₁]
      exact findShare_append_of_none t.id d.sharedWith ⟨t.id, lvl, now⟩ hsh
        rfl
    refine ⟨?_, hentry⟩
    have hown₁ : ¬ d₁.owner ≠ rid := by
      rw [hd₁]
      simp [saveDocument, hr]
    simp [shareDocument, hown₁, hfind', hself, hentry]
  · intro d₁ huniq h
    rcases shareDocument_shared_inv d d₁ rid users email lvl now h with
      ⟨t, hfind', hr, hself, hsh, hd₁⟩
    rw [hd₁]
    unfold uniqueShares saveDocument
    simp only [List.pairwise_append]
    refine ⟨huniq, List.pairwise_singleton _ _, ?_⟩
    intro a ha b hb
    rcases List.mem_singleton.mp hb with rfl
    exact findShare_none_not_mem t.id d.sharedWith hsh a ha

/-- Document `docOwned` before any sharing: an empty `sharedWith` list. -/
def docPlain : Document := { docOwned with sharedWith := [] }

/-- Document `docPlain` after the owner grants user 2 `view` access at time 50. -/
def docSharedView : Document :=
  { docPlain with sharedWith := [⟨2, .view, 50⟩], updatedAt := 50 }

/-- The user store holding only Bob (id 2). -/
def usersBob : List User := [uBareUnverified]

/-- Witness for C2: the owner (user 1) grants Bob `view` on `docPlain`; the
follow-up `edit` grant fails `alreadyShared` and Bob's entry keeps level
`view`, and the granted document still has pairwise-distinct share
targets. -/
theorem C2_grant_share_uniqueness_witness :
    shareDocument (some docSharedView) 1 usersBob emailBob .edit 60
      = .alreadyShared
    ∧ findShare 2 docSharedView.sharedWith = some ⟨2, .view, 50⟩
    ∧ uniqueShares docSharedView := by
  have h := C2_grant_share_uniqueness docPlain 1 usersBob emailBob
    uBareUnverified ⟨2, .view, 50⟩ .view .edit 50 60
  have hstep := h.2.1 docSharedView (by decide) (by decide)
  exact ⟨hstep.1, hstep.2,
    h.2.2 docSharedView (by simp [uniqueShares, docPlain, docOwned])
      (by decide)⟩

/-! ## Claim C8: timestamps under mutation -/

/-- Claim C8: every successful document mutation — the metadata field update
as well as the three share-list mutations — sets `updatedAt` to the current
time (explicitly in `findByIdAndUpdate`, via the pre-save hook for the
`save()` paths) while `createdAt` and `owner` keep their values. -/
theorem C8_mutations_refresh_updatedAt (d d₁ : Document) (rid targetId : Nat)
    (users : List User) (email : String) (lvl : AccessLevel)
    (fields : DocFields) (now : Nat) :
    (updateDocument (some d) rid fields now = .updated d₁ →
      d₁.updatedAt = now ∧ d₁.createdAt = d.createdAt ∧ d₁.owner = d.owner)
    ∧ (shareDocument (some d) rid users email lvl now = .shared d₁ →
      d₁.updatedAt = now ∧ d₁.createdAt = d.createdAt ∧ d₁.owner = d.owner)
    ∧ (updateSharing (some d) rid targetId lvl now = .mutated d₁ →
      d₁.updatedAt = now ∧ d₁.createdAt = d.createdAt ∧ d₁.owner = d.owner)
    ∧ (removeSharing (some d) rid targetId now = .mutated d₁ →
      d₁.updatedAt = now ∧ d₁.createdAt = d.createdAt ∧ d₁.owner = d.owner)
    := by
  refine ⟨?_, ?_, ?_, ?_⟩
  · intro h
    rw [updateDocument_updated_inv d d₁ rid fields now h]
    exact ⟨rfl, rfl, rfl⟩
  · intro h
    rcases shareDocument_shared_inv d d₁ rid users email lvl now h with
      ⟨t, _, _, _, _, hd₁⟩
    rw [hd₁]
    exact ⟨rfl, rfl, rfl⟩
  · intro h
    rcases updateSharing_mutated_inv d d₁ rid targetId lvl now h with
      ⟨_, _, hd₁⟩
    rw [hd₁]
    exact ⟨rfl, rfl, rfl⟩
  · intro h
    rcases removeSharing_mutated_inv d d₁ rid targetId now h with ⟨_, _, hd₁⟩
    rw [hd₁]
    exact ⟨rfl, rfl, rfl⟩

/-- Document `docOwned` after its owner replaces the metadata fields at time 60. -/
def docOwnedEdited : Document :=
  { docOwned with title := fieldsNew.title
                  description := fieldsNew.description
                  documentType := fieldsNew.documentType
                  updatedAt := 60 }

/-- Document `docOwned` after the owner downgrades user 2 to `view` at time 60. -/
def docOwnedView : Document :=
  { docOwned with sharedWith := [⟨2, .view, 20⟩], updatedAt := 60 }

/-- Document `docOwned` after the owner revokes user 2's share at time 60. -/
def docOwnedRevoked : Document :=
  { docOwned with sharedWith := [], updatedAt := 60 }

/-- Witness for C8: each of the four mutations performed concretely on
`docOwned`/`docPlain` refreshes `updatedAt` and fixes `createdAt` and
`owner`. -/
theorem C8_mutations_refresh_updatedAt_witness :
    (docOwnedEdited.updatedAt = 60 ∧ docOwnedEdited.createdAt
        = docOwned.createdAt ∧ docOwnedEdited.owner = docOwned.owner)
    ∧ (docSharedView.updatedAt = 50 ∧ docSharedView.createdAt
        = docPlain.createdAt ∧ docSharedView.owner = docPlain.owner)
    ∧ (docOwnedView.updatedAt = 60 ∧ docOwnedView.createdAt
        = docOwned.createdAt ∧ docOwnedView.owner = docOwned.owner)
    ∧ (docOwnedRevoked.updatedAt = 60 ∧ docOwnedRevoked.createdAt
        = docOwned.createdAt ∧ docOwnedRevoked.owner = docOwned.owner) := by
  refine ⟨?_, ?_, ?_, ?_⟩
  · exact (C8_mutations_refresh_updatedAt docOwned docOwnedEdited
      1 2 usersBob emailBob .view fieldsNew 60).1 (by decide)
  · exact (C8_mutations_refresh_updatedAt docPlain docSharedView 1 2 usersBob
      emailBob .view fieldsNew 50).2.1 (by decide)
  · exact (C8_mutations_refresh_updatedAt docOwned docOwnedView 1 2 usersBob
      emailBob .view fieldsNew 60).2.2.1 (by decide)
  · exact (C8_mutations_refresh_updatedAt docOwned docOwnedRevoked 1 2
      usersBob emailBob .view fieldsNew 60).2.2.2 (by decide)

/-! ## Claim C9: the owner never appears in sharedWith -/

/-- Claim C9: for every reachable document the owner's id never appears in
its `sharedWith` list — creation starts from the empty list, grant rejects
a target equal to the requesting owner with `selfShare` before appending
(and otherwise appends only a non-owner target), and the level change and
revocation never add entries, so every operation preserves the
property. -/
theorem C9_owner_never_in_sharedWith (d d₁ : Document) (rid targetId : Nat)
    (users : List User) (email : String) (target : User)
    (lvl : AccessLevel) (fileOpt : Option String) (fields : DocFields)
    (upl : Except String CloudinaryUpload) (store : List Document)
    (newId now : Nat) :
    (∀ dn ∈ (uploadDocument fileOpt fields upl rid store newId now).store,
      dn ∈ store ∨ dn.sharedWith = [])
    ∧ (d.owner = rid → findUserByEmail users email = some target →
        target.id = rid →
        shareDocument (some d) rid users email lvl now = .selfShare)
    ∧ (ownerNotShared d →
        shareDocument (some d) rid users email lvl now = .shared d₁ →
        ownerNotShared d₁)
    ∧ (ownerNotShared d →
        updateSharing (some d) rid targetId lvl now = .mutated d₁ →
        ownerNotShared d₁)
    ∧ (ownerNotShared d →
        removeSharing (some d) rid targetId now = .mutated d₁ →
        ownerNotShared d₁) := by
  refine ⟨?_, ?_, ?_, ?_, ?_⟩
  · intro dn hdn
    cases fileOpt with
    | none => exact Or.inl hdn
    | some f =>
      cases upl with
      | error msg => exact Or.inl hdn
      | ok r =>
        simp only [uploadDocument] at hdn
        rcases List.mem_append.mp hdn with hold | hnew
        · exact Or.inl hold
        · rcases List.mem_singleton.mp hnew with rfl
          exact Or.inr rfl
  · intro hr hfind hself
    have hown : ¬ d.owner ≠ rid := by simp [hr]
    simp [shareDocument, hown, hfind, hself]
  · intro hinv h
    rcases shareDocument_shared_inv d d₁ rid users email lvl now h with
      ⟨t, _, hr, hself, _, hd₁⟩
    rw [hd₁]
    intro e he
    simp only [saveDocument] at he ⊢
    rcases List.mem_append.mp he with hold | hnew
    · exact hinv e hold
    · rcases List.mem_singleton.mp hnew with rfl
      simpa [hr] using hself
  · intro hinv h
    rcases updateSharing_mutated_inv d d₁ rid targetId lvl now h with
      ⟨_, _, hd₁⟩
    rw [hd₁]
    intro e he
    simp only [saveDocument] at he ⊢
    rcases mem_setShareLevel targetId lvl d.sharedWith e he with
      ⟨e₀, he₀, heq⟩
    rw [heq]
    exact hinv e₀ he₀
  · intro hinv h
    rcases removeSharing_mutated_inv d d₁ rid targetId now h with ⟨_, _, hd₁⟩
    rw [hd₁]
    intro e he
    simp only [saveDocument] at he ⊢
    exact hinv e (mem_removeShare targetId d.sharedWith e he)

/-- The user store holding only Alice (id 1), verified. -/
def usersAlice : List User := [uAliceDone]

/-- Witness for C9: the owner's attempt to share `docPlain` with their own
email fails `selfShare`, and the property holds concretely after the grant
to Bob, the level change and the revocation. -/
theorem C9_owner_never_in_sharedWith_witness :
    shareDocument (some docPlain) 1 usersAlice emailAlice .view 50
      = .selfShare
    ∧ ownerNotShared docSharedView
    ∧ ownerNotShared docOwnedView
    ∧ ownerNotShared docOwnedRevoked := by
  refine ⟨?_, ?_, ?_, ?_⟩
  · exact (C9_owner_never_in_sharedWith docPlain docSharedView 1 2 usersAlice
      emailAlice uAliceDone .view none fieldsNew (.error bearerWord) [] 11
      50).2.1 rfl rfl rfl
  · exact (C9_owner_never_in_sharedWith docPlain docSharedView 1 2 usersBob
      emailBob uBareUnverified .view none fieldsNew (.error bearerWord) [] 11
      50).2.2.1 (by unfold ownerNotShared; decide) (by decide)
  · exact (C9_owner_never_in_sharedWith docOwned docOwnedView 1 2 usersBob
      emailBob uBareUnverified .view none fieldsNew (.error bearerWord) [] 11
      60).2.2.2.1 (by unfold ownerNotShared; decide) (by decide)
  · exact (C9_owner_never_in_sharedWith docOwned docOwnedRevoked 1 2 usersBob
      emailBob uBareUnverified .view none fieldsNew (.error bearerWord) [] 11
      60).2.2.2.2 (by unfold ownerNotShared; decide) (by decide)

/-! ## Claim C10: success responses never carry credential material -/

/-- Inversion of a successful `verifyOTP`: the returned user is the input
user, verified, with the pending code cleared. -/
theorem verifyOTP_verified_inv (u u₁ : User) (c : String) (now : Nat)
    (h : verifyOTP (some u) c now = .verified u₁) :
    u₁ = { u with isVerified := true, otp := none } := by
  by_cases hv : u.isVerified
  · simp [verifyOTP, hv] at h
  · cases ho : u.otp with
    | none => simp [verifyOTP, hv, ho] at h
    | some o =>
      by_cases hc : o.code = ""
      · simp [verifyOTP, hv, ho, hc] at h
      · by_cases hexp : o.expiry < now
        · simp [verifyOTP, hv, ho, hc, hexp] at h
        · by_cases heq : o.code = c
          · have hc' : ¬ c = "" := heq ▸ hc
            have hs : verifyOTP (some u) c now
                = .verified { u with isVerified := true, otp := none } := by
              simp [verifyOTP, hv, ho, hc, hc', hexp, heq]
            rw [hs] at h
            exact ((VerifyResult.verified.injEq _ _).mp h).symm
          · simp [verifyOTP, hv, ho, hc, hexp, heq] at h

/-- Two users that agree on everything except the stored password hash and
the pending code. -/
def eqExceptSecrets (u v : User) : Prop :=
  u.id = v.id ∧ u.name = v.name ∧ u.email = v.email
    ∧ u.isVerified = v.isVerified

/-- Claim C10: `sendTokenResponse` removes the password hash and the pending
OTP from the returned user object, so the success responses of `verify-otp`
and `login` never reveal the stored credential material: the response user
always has blank `password` and `otp`, and for two users (stores) differing
only in secret material the success bodies agree on everything apart from
the signed token. -/
theorem C10_token_responses_scrubbed (sign : User → String) (u v : User)
    (pwOk : Bool) (c : String) (now : Nat) (hsec : eqExceptSecrets u v) :
    (sendTokenResponse sign u).user.password = none
    ∧ (sendTokenResponse sign u).user.otp = none
    ∧ (sendTokenResponse sign u).user = (sendTokenResponse sign v).user
    ∧ (sendTokenResponse sign u).success = (sendTokenResponse sign v).success
    ∧ (∀ r r', login sign (some u) pwOk = .okLogin r →
        login sign (some v) pwOk = .okLogin r' →
        r.user = r'.user ∧ r.user.password = none ∧ r.user.otp = none)
    ∧ (∀ r r', verifyOTPResponse sign (some u) c now = some r →
        verifyOTPResponse sign (some v) c now = some r' →
        r.user = r'.user ∧ r.user.password = none ∧ r.user.otp = none) := by
  obtain ⟨hid, hname, hemail, hver⟩ := hsec
  have hscrub : (sendTokenResponse sign u).user
      = (sendTokenResponse sign v).user := by
    cases u
    cases v
    dsimp only at hid hname hemail hver
    subst hid
    subst hname
    subst hemail
    subst hver
    rfl
  refine ⟨rfl, rfl, hscrub, rfl, ?_, ?_⟩
  · intro r r' hr hr'
    have hru : r = sendTokenResponse sign u := by
      by_cases hvu : u.isVerified
      · by_cases hp : pwOk
        · have : login sign (some u) pwOk
              = .okLogin (sendTokenResponse sign u) := by
            simp [login, hvu, hp]
          rw [this] at hr
          exact ((LoginResult.okLogin.injEq _ _).mp hr).symm
        · simp [login, hvu, hp] at hr
      · simp [login, hvu] at hr
    have hrv : r' = sendTokenResponse sign v := by
      by_cases hvv : v.isVerified
      · by_cases hp : pwOk
        · have : login sign (some v) pwOk
              = .okLogin (sendTokenResponse sign v) := by
            simp [login, hvv, hp]
          rw [this] at hr'
          exact ((LoginResult.okLogin.injEq _ _).mp hr').symm
        · simp [login, hvv, hp] at hr'
      · simp [login, hvv] at hr'
    rw [hru, hrv]
    exact ⟨hscrub, rfl, rfl⟩
  · intro r r' hr hr'
    have hru : r = sendTokenResponse sign
        { u with isVerified := true, otp := none } := by
      cases hvo : verifyOTP (some u) c now with
      | verified u₁ =>
        have hu₁ := verifyOTP_verified_inv u u₁ c now hvo
        subst hu₁
        simp only [verifyOTPResponse, hvo] at hr
        exact ((Option.some.injEq _ _).mp hr).symm
      | notFound => simp [verifyOTPResponse, hvo] at hr
      | alreadyVerified => simp [verifyOTPResponse, hvo] at hr
      | noPendingCode => simp [verifyOTPResponse, hvo] at hr
      | expired => simp [verifyOTPResponse, hvo] at hr
      | mismatch => simp [verifyOTPResponse, hvo] at hr
    have hrv : r' = sendTokenResponse sign
        { v with isVerified := true, otp := none } := by
      cases hvo : verifyOTP (some v) c now with
      | verified v₁ =>
        have hv₁ := verifyOTP_verified_inv v v₁ c now hvo
        subst hv₁
        simp only [verifyOTPResponse, hvo] at hr'
        exact ((Option.some.injEq _ _).mp hr').symm
      | notFound => simp [verifyOTPResponse, hvo] at hr'
      | alreadyVerified => simp [verifyOTPResponse, hvo] at hr'
      | noPendingCode => simp [verifyOTPResponse, hvo] at hr'
      | expired => simp [verifyOTPResponse, hvo] at hr'
      | mismatch => simp [verifyOTPResponse, hvo] at hr'
    rw [hru, hrv]
    refine ⟨?_, rfl, rfl⟩
    cases u
    cases v
    dsimp only at hid hname hemail
    subst hid
    subst hname
    subst hemail
    rfl

/-- Alice's identity as the login route loads it: verified, with the
password hash selected and the stale pending code still stored. -/
def uAliceSecret : User :=
  { uAliceFresh with isVerified := true, password := some codeBad }

/-- Witness for C10: concretely, the responses for Alice with and without
stored secret material coincide on the user object and carry no password
and no pending code. -/
theorem C10_token_responses_scrubbed_witness :
    (sendTokenResponse (fun _ => tok1Lit) uAliceSecret).user.password = none
    ∧ (sendTokenResponse (fun _ => tok1Lit) uAliceSecret).user.otp = none
    ∧ (sendTokenResponse (fun _ => tok1Lit) uAliceSecret).user
        = (sendTokenResponse (fun _ => tok1Lit) uAliceDone).user := by
  have h := C10_token_responses_scrubbed (fun _ => tok1Lit) uAliceSecret
    uAliceDone true codeOk 50 ⟨rfl, rfl, rfl, rfl⟩
  exact ⟨h.1, h.2.1, h.2.2.1⟩

end FileShare
